import Mathlib

/- Verification of the WillItRain weather service core: the rain-probability,
   temperature and wind evaluators, the time-window selector, and the query
   parameter handling of the GET /api/willitrain route.

   Modelling conventions: numeric samples (mm, degrees, percent, km/h) are
   rationals; timestamps (JS epoch milliseconds, Date.getTime values) are
   integers.  JS Math.round(x) rounds half toward positive infinity, i.e. it
   is the floor of x + 1/2.  A JS null/undefined optional series is Option. -/

/-- JS Math.round: round half toward positive infinity, floor (x + 1/2). -/
def jsRound (x : ℚ) : ℤ := ⌊x + 1/2⌋

/-- One-decimal rounding as the source writes it: Math.round(x * 10) / 10. -/
def round1 (x : ℚ) : ℚ := ((jsRound (x * 10) : ℤ) : ℚ) / 10

/-- arr.reduce((a, b) => a + b, 0): left fold of addition with initial 0. -/
def listSum (l : List ℚ) : ℚ := l.foldl (fun a b => a + b) 0

/-- Math.max(...arr) for a non-empty arr; the [] case is junk (JS -Infinity),
every claim about it is conditioned on a non-empty input. -/
def listMax : List ℚ → ℚ
  | [] => 0
  | x :: xs => xs.foldl max x

/-- Math.min(...arr) for a non-empty arr; the [] case is junk (JS Infinity). -/
def listMin : List ℚ → ℚ
  | [] => 0
  | x :: xs => xs.foldl min x

/-- The inline humidityBonus of calculateRainProbability (source lines 19-23):
0 when humidity is null or empty, else 10 / 5 / 0 by the humidity mean. -/
def humidityBonus : Option (List ℚ) → ℚ
  | none => 0
  | some hu =>
    if 0 < hu.length then
      let avgHumidity := listSum hu / (hu.length : ℚ)
      if avgHumidity > 80 then 10 else if avgHumidity > 60 then 5 else 0
    else 0

/-- calculateRainProbability (source lines 14-26): count precipitation samples
strictly above 0.1 mm, divide by the hours parameter, scale to a percentage,
add the humidity bonus, Math.round, then Math.min with 100. -/
def calculateRainProbability (precipitation : List ℚ) (humidity : Option (List ℚ))
    (hours : ℤ) : ℤ :=
  let rainHours : ℕ := (precipitation.filter (fun p => decide (p > 0.1))).length
  let baseProbability : ℚ := ((rainHours : ℚ) / (hours : ℚ)) * 100
  min 100 (jsRound (baseProbability + humidityBonus humidity))

/-- Result record of evaluateTemperature (source lines 40-45). -/
structure TemperatureData where
  average : ℚ
  max : ℚ
  min : ℚ
  status : String

/-- evaluateTemperature (source lines 29-46): mean / max / min rounded to one
decimal, and a status chosen by the first matching rule of the if-chain. -/
def evaluateTemperature (temperatures : List ℚ) : TemperatureData :=
  let avgTemp := listSum temperatures / (temperatures.length : ℚ)
  let maxTemp := listMax temperatures
  let minTemp := listMin temperatures
  let tempStatus :=
    if maxTemp > 35 then "muy_alta"
    else if minTemp < 0 then "muy_baja"
    else if maxTemp > 30 then "alta"
    else if minTemp < 5 then "baja"
    else "normal"
  { average := round1 avgTemp, max := round1 maxTemp, min := round1 minTemp,
    status := tempStatus }

/-- Result record of evaluateWind (source lines 57-61). -/
structure WindData where
  average : ℚ
  max : ℚ
  status : String

/-- evaluateWind (source lines 49-62): mean and max rounded to one decimal,
and a status chosen by the if-chain on max then mean. -/
def evaluateWind (windSpeeds : List ℚ) : WindData :=
  let avgWind := listSum windSpeeds / (windSpeeds.length : ℚ)
  let maxWind := listMax windSpeeds
  let windStatus :=
    if maxWind > 20 then "Mucho"
    else if avgWind > 10 then "Común"
    else "Poco"
  { average := round1 avgWind, max := round1 maxWind, status := windStatus }

/-- JS Array.prototype.findIndex: index of the first element satisfying p,
or -1 when none does. -/
def jsFindIndex {α : Type} (p : α → Bool) : List α → ℤ
  | [] => -1
  | x :: xs =>
    if p x then 0
    else if jsFindIndex p xs = -1 then -1 else jsFindIndex p xs + 1

/-- The loop guard diff < minDiff of the nearest-index scan, where minDiff
starts as Infinity (modelled as none). -/
def diffLt (d : ℤ) : Option ℤ → Bool
  | none => true
  | some m => decide (d < m)

/-- The nearest-index for-loop (source lines 159-164): walk the series keeping
the running minimal absolute difference (minDiff, none = Infinity) and its
index idx (initially -1). -/
def scanNearest (target : ℤ) : List ℤ → ℕ → Option ℤ → ℤ → ℤ
  | [], _, _, idx => idx
  | t :: ts, i, m, idx =>
    if diffLt |t - target| m
    then scanNearest target ts (i + 1) (some |t - target|) (i : ℤ)
    else scanNearest target ts (i + 1) m idx

/-- Entry point of the nearest-index scan: minDiff = Infinity, idx = -1. -/
def nearestIdx (times : List ℤ) (target : ℤ) : ℤ :=
  scanNearest target times 0 none (-1)

/-- Index selection of specific-instant mode (source lines 156-165): exact
getTime match via findIndex, falling back to the nearest-index scan. -/
def selectIdx (times : List ℤ) (target : ℤ) : ℤ :=
  let e := jsFindIndex (fun t => decide (t = target)) times
  if e = -1 then nearestIdx times target else e

/-- JS arr[i] for a possibly out-of-range integer index: none models
undefined. -/
def jsIndex {α : Type} (l : List α) (i : ℤ) : Option α :=
  if i < 0 then none else l.get? i.toNat

/-- JS arr.slice(s, e) for the non-negative start and end indices the route
uses: elements at positions s, s+1, ..., e-1, clipped to the array bounds. -/
def jsSlice {α : Type} (l : List α) (s e : ℤ) : List α :=
  (l.take e.toNat).drop s.toNat

/-- The context radius of specific-instant mode: const window = 6
(source line 172). -/
def contextRadius : ℤ := 6

/-- Window start of specific-instant mode: Math.max(0, idx - window)
(source line 173). -/
def contextStart (idx : ℤ) : ℤ := max 0 (idx - contextRadius)

/-- Window end of specific-instant mode: Math.min(times.length, idx + window + 1)
(source line 174). -/
def contextEnd (len idx : ℤ) : ℤ := min len (idx + contextRadius + 1)

/-- The hourly payload of the forecast provider, after the route's Number
mapping (source lines 147-152).  The invariant of the data model is that all
present series have the length of time; humidity may be absent (null). -/
structure Hourly where
  time : List ℤ
  precipitation : List ℚ
  temperature : List ℚ
  humidity : Option (List ℚ)
  windSpeed : List ℚ

/-- The fields of the specific_date response (source lines 196-207) together
with the intermediate idx and context slice the handler computes. -/
structure SpecificResult where
  willRain : Bool
  rainProbability : ℤ
  precipitationMm : ℚ
  temperature : ℚ
  temperatureData : TemperatureData
  windData : WindData
  thresholdMm : ℚ
  idx : ℤ
  contextPrecs : List ℚ

/-- Specific-instant branch of /api/willitrain (source lines 154-207): select
the index for the target instant, read the point sample (undefined becomes 0
via the ?? 0 default), compare it with the threshold for willRain, slice the
6-hour context window around the index, and run the three evaluators on it. -/
def specificMode (h : Hourly) (target : ℤ) (threshNum : ℚ) : SpecificResult :=
  let idx := selectIdx h.time target
  let precip := (jsIndex h.precipitation idx).getD 0
  let temp := (jsIndex h.temperature idx).getD 0
  let willRain := decide (precip ≥ threshNum)
  let s := contextStart idx
  let e := contextEnd (h.time.length : ℤ) idx
  let contextPrecs := jsSlice h.precipitation s e
  let contextTemps := jsSlice h.temperature s e
  let contextHumidity := h.humidity.map (fun hu => jsSlice hu s e)
  let contextWindSpeed := jsSlice h.windSpeed s e
  { willRain := willRain
    rainProbability := calculateRainProbability contextPrecs contextHumidity (e - s)
    precipitationMm := precip
    temperature := temp
    temperatureData := evaluateTemperature contextTemps
    windData := evaluateWind contextWindSpeed
    thresholdMm := threshNum
    idx := idx
    contextPrecs := contextPrecs }

/-- The fields of the next_hours response (source lines 237-247) together with
the intermediate startIdx and slices the handler computes. -/
structure ForwardResult where
  willRain : Bool
  rainProbability : ℤ
  maxPrecipitationMm : ℚ
  temperatureData : TemperatureData
  windData : WindData
  hoursAnalyzed : ℕ
  thresholdMm : ℚ
  startIdx : ℤ
  sliceTimes : List ℤ
  slicePrecs : List ℚ
  sliceHumidity : Option (List ℚ)

/-- Forward branch of /api/willitrain (source lines 210-247): startIdx is the
first index with timestamp ≥ now, else the last index; slice hoursNum entries
from startIdx; willRain and maxPrecip fold over the sliced precipitation; the
probability is computed with hoursNum (not the slice length) as denominator. -/
def forwardMode (h : Hourly) (now : ℤ) (hoursNum : ℤ) (threshNum : ℚ) : ForwardResult :=
  let f := jsFindIndex (fun t => decide (t ≥ now)) h.time
  let startIdx := if f = -1 then (h.time.length : ℤ) - 1 else f
  let sliceTimes := jsSlice h.time startIdx (startIdx + hoursNum)
  let slicePrecs := jsSlice h.precipitation startIdx (startIdx + hoursNum)
  let sliceTemps := jsSlice h.temperature startIdx (startIdx + hoursNum)
  let sliceHumidity := h.humidity.map (fun hu => jsSlice hu startIdx (startIdx + hoursNum))
  let sliceWindSpeed := jsSlice h.windSpeed startIdx (startIdx + hoursNum)
  { willRain := slicePrecs.any (fun p => decide (p ≥ threshNum))
    rainProbability := calculateRainProbability slicePrecs sliceHumidity hoursNum
    maxPrecipitationMm := slicePrecs.foldl (fun m p => if p > m then p else m) 0
    temperatureData := evaluateTemperature sliceTemps
    windData := evaluateWind sliceWindSpeed
    hoursAnalyzed := sliceTimes.length
    thresholdMm := threshNum
    startIdx := startIdx
    sliceTimes := sliceTimes
    slicePrecs := slicePrecs
    sliceHumidity := sliceHumidity }

/-- Effective hours of the route (source line 109):
Math.max(1, Math.min(168, parseInt(hours, 10) || 12)).  The argument is the
result of parseInt: none models NaN; a parsed 0 is falsy, so || replaces it
by the default 12 before clamping. -/
def effectiveHours (parsed : Option ℤ) : ℤ :=
  max 1 (min 168 (match parsed with
    | none => 12
    | some v => if v = 0 then 12 else v))

/-- Effective threshold of the route (source line 110):
parseFloat(threshold) || 0.1.  none models NaN; a parsed 0 is falsy and is
replaced by the default 0.1. -/
def effectiveThreshold (parsed : Option ℚ) : ℚ :=
  match parsed with
  | none => 0.1
  | some v => if v = 0 then 0.1 else v

/-- Outcome of the pre-fetch phase of /api/willitrain: either an early error
response (status, message) returned before the outbound fetch, or a fetch of
the provider with the optional parsed target instant. -/
inductive PreOutcome where
  | error (status : ℕ) (msg : String)
  | fetch (targetDate : Option ℤ)

/-- A present date query string, as the truthiness test if (date) and the
new Date parse see it: the empty string "" (the only falsy string), a
non-empty string new Date rejects as Invalid Date, or a non-empty string
parsing to an instant. -/
inductive DateValue where
  | empty
  | invalid
  | valid (t : ℤ)

/-- Pre-fetch control flow of /api/willitrain (source lines 106-139): check
lat and lon, then the date query value.  The guard is if (date), a JS
truthiness test, so validation runs only for a present non-empty string: an
empty string is falsy and is treated like an absent date (forward mode, no
validation); a non-empty unparsable string is rejected with 400; otherwise
the handler reaches the fetch call. -/
def preFetchCheck (hasLat hasLon : Bool) (date : Option DateValue) : PreOutcome :=
  if !hasLat || !hasLon then PreOutcome.error 400 "lat and lon are required"
  else match date with
    | none => PreOutcome.fetch none
    | some DateValue.empty => PreOutcome.fetch none
    | some DateValue.invalid => PreOutcome.error 400 "invalid date"
    | some (DateValue.valid t) => PreOutcome.fetch (some t)

/-- Following the spec wording for the rain probability (refinement side):
round(min(100, (rainHours / hours) * 100 + humidityBonus)), with the bonus
computed from the arithmetic mean of the humidity series. -/
def specRainProbability (precipitation : List ℚ) (humidity : Option (List ℚ))
    (hours : ℤ) : ℤ :=
  let rainHours : ℕ := (precipitation.filter (fun p => decide (p > 0.1))).length
  let bonus : ℚ :=
    match humidity with
    | none => 0
    | some hu =>
      if 0 < hu.length then
        if hu.sum / (hu.length : ℚ) > 80 then 10
        else if hu.sum / (hu.length : ℚ) > 60 then 5 else 0
      else 0
  jsRound (min 100 (((rainHours : ℚ) / (hours : ℚ)) * 100 + bonus))

/-- Following the spec wording for rounding (refinement side): round half
toward positive infinity at one decimal. -/
def round1HalfUp (x : ℚ) : ℚ := ((⌊x * 10 + 1/2⌋ : ℤ) : ℚ) / 10

/-- Following the claim wording for rounding: round half away from zero at
one decimal. -/
def round1AwayFromZero (x : ℚ) : ℚ :=
  if 0 ≤ x then ((⌊x * 10 + 1/2⌋ : ℤ) : ℚ) / 10
  else -(((⌊(-x) * 10 + 1/2⌋ : ℤ) : ℚ) / 10)

/-- Following the claim wording for the hours parameter: the integer parse
clamped to [1,168], with 12 only for a non-numeric value. -/
def claimedHours (parsed : Option ℤ) : ℤ :=
  match parsed with
  | none => 12
  | some v => max 1 (min 168 v)

/-- Following the claim wording for the threshold parameter: the numeric
parse, with 0.1 only for a non-numeric value. -/
def claimedThreshold (parsed : Option ℚ) : ℚ :=
  match parsed with
  | none => 0.1
  | some v => v

/-- The foldl of the source's reduce agrees with the library sum. -/
lemma listSum_eq_sum (l : List ℚ) : listSum l = l.sum :=
  List.sum_eq_foldl.symm

/-- Math.round is monotone. -/
lemma jsRound_mono {x y : ℚ} (h : x ≤ y) : jsRound x ≤ jsRound y :=
  Int.floor_le_floor (by linarith)

/-- Math.round fixes the integer 100. -/
lemma jsRound_hundred : jsRound (100 : ℚ) = 100 := by
  rw [jsRound, Int.floor_eq_iff]
  norm_num

/-- Clamping at 100 commutes with Math.round: the source's
min(100, round(x)) equals the spec's round(min(100, x)). -/
lemma min_jsRound (x : ℚ) : min (100 : ℤ) (jsRound x) = jsRound (min 100 x) := by
  rcases le_total x 100 with h | h
  · rw [min_eq_right h, min_eq_right]
    calc jsRound x ≤ jsRound 100 := jsRound_mono h
    _ = 100 := jsRound_hundred
  · rw [min_eq_left h, jsRound_hundred, min_eq_left]
    calc (100 : ℤ) = jsRound 100 := jsRound_hundred.symm
    _ ≤ jsRound x := jsRound_mono h

/-- Math.round of a non-negative number is non-negative. -/
lemma jsRound_nonneg {x : ℚ} (h : 0 ≤ x) : 0 ≤ jsRound x :=
  Int.floor_nonneg.mpr (by linarith)

/-- The accumulator never exceeds a max-fold. -/
lemma le_foldl_max (xs : List ℚ) : ∀ a : ℚ, a ≤ xs.foldl max a := by
  induction xs with
  | nil => intro a; simp
  | cons x xs ih =>
    intro a
    calc a ≤ max a x := le_max_left a x
    _ ≤ xs.foldl max (max a x) := ih (max a x)

/-- Every element is at most a max-fold over a list containing it. -/
lemma elem_le_foldl_max (xs : List ℚ) : ∀ (a x : ℚ), x ∈ xs → x ≤ xs.foldl max a := by
  induction xs with
  | nil => intro a x hx; simp at hx
  | cons y ys ih =>
    intro a x hx
    rcases List.mem_cons.mp hx with h | h
    · subst h
      calc x ≤ max a x := le_max_right a x
      _ ≤ ys.foldl max (max a x) := le_foldl_max ys (max a x)
    · exact ih (max a y) x h

/-- A max-fold is the accumulator or a member of the list. -/
lemma foldl_max_mem (xs : List ℚ) : ∀ a : ℚ, xs.foldl max a = a ∨ xs.foldl max a ∈ xs := by
  induction xs with
  | nil => intro a; left; rfl
  | cons y ys ih =>
    intro a
    rcases ih (max a y) with h | h
    · rcases max_choice a y with hc | hc
      · left; simpa [hc] using h
      · right; rw [List.foldl_cons, h, hc]; exact List.mem_cons_self y ys
    · right; exact List.mem_cons_of_mem y h

/-- listMax of a non-empty list is one of its elements. -/
lemma listMax_mem {l : List ℚ} (h : l ≠ []) : listMax l ∈ l := by
  cases l with
  | nil => exact absurd rfl h
  | cons x xs =>
    rcases foldl_max_mem xs x with hc | hc
    · rw [listMax, hc]; exact List.mem_cons_self x xs
    · rw [listMax]; exact List.mem_cons_of_mem x hc

/-- Every element of a list is at most its listMax. -/
lemma le_listMax {l : List ℚ} {x : ℚ} (h : x ∈ l) : x ≤ listMax l := by
  cases l with
  | nil => simp at h
  | cons y ys =>
    rcases List.mem_cons.mp h with hc | hc
    · rw [listMax, hc]; exact le_foldl_max ys y
    · exact elem_le_foldl_max ys y x hc

/-- The accumulator is never below a min-fold. -/
lemma foldl_min_le (xs : List ℚ) : ∀ a : ℚ, xs.foldl min a ≤ a := by
  induction xs with
  | nil => intro a; simp
  | cons x xs ih =>
    intro a
    calc xs.foldl min (min a x) ≤ min a x := ih (min a x)
    _ ≤ a := min_le_left a x

/-- A min-fold is at most every element of the list. -/
lemma foldl_min_le_elem (xs : List ℚ) : ∀ (a x : ℚ), x ∈ xs → xs.foldl min a ≤ x := by
  induction xs with
  | nil => intro a x hx; simp at hx
  | cons y ys ih =>
    intro a x hx
    rcases List.mem_cons.mp hx with h | h
    · subst h
      calc ys.foldl min (min a x) ≤ min a x := foldl_min_le ys (min a x)
      _ ≤ x := min_le_right a x
    · exact ih (min a y) x h

/-- A min-fold is the accumulator or a member of the list. -/
lemma foldl_min_mem (xs : List ℚ) : ∀ a : ℚ, xs.foldl min a = a ∨ xs.foldl min a ∈ xs := by
  induction xs with
  | nil => intro a; left; rfl
  | cons y ys ih =>
    intro a
    rcases ih (min a y) with h | h
    · rcases min_choice a y with hc | hc
      · left; simpa [hc] using h
      · right; rw [List.foldl_cons, h, hc]; exact List.mem_cons_self y ys
    · right; exact List.mem_cons_of_mem y h

/-- listMin of a non-empty list is one of its elements. -/
lemma listMin_mem {l : List ℚ} (h : l ≠ []) : listMin l ∈ l := by
  cases l with
  | nil => exact absurd rfl h
  | cons x xs =>
    rcases foldl_min_mem xs x with hc | hc
    · rw [listMin, hc]; exact List.mem_cons_self x xs
    · rw [listMin]; exact List.mem_cons_of_mem x hc

/-- listMin of a list is at most every element. -/
lemma listMin_le {l : List ℚ} {x : ℚ} (h : x ∈ l) : listMin l ≤ x := by
  cases l with
  | nil => simp at h
  | cons y ys =>
    rcases List.mem_cons.mp h with hc | hc
    · rw [listMin, hc]; exact foldl_min_le ys y
    · exact foldl_min_le_elem ys y x hc

/-- jsFindIndex returns -1 or a non-negative index. -/
lemma jsFindIndex_neg_one_or_nonneg {α : Type} (p : α → Bool) (l : List α) :
    jsFindIndex p l = -1 ∨ 0 ≤ jsFindIndex p l := by
  induction l with
  | nil => left; rfl
  | cons x xs ih =>
    cases hp : p x with
    | true => right; simp [jsFindIndex, hp]
    | false =>
      rcases ih with h | h
      · left; simp [jsFindIndex, hp, h]
      · right
        have hne : ¬ jsFindIndex p xs = -1 := by omega
        simp only [jsFindIndex, hp, Bool.false_eq_true, if_false, if_neg hne]
        omega

/-- jsFindIndex returns -1 exactly when no element satisfies the predicate. -/
lemma jsFindIndex_eq_neg_one_iff {α : Type} (p : α → Bool) (l : List α) :
    jsFindIndex p l = -1 ↔ ∀ x ∈ l, p x = false := by
  induction l with
  | nil => simp [jsFindIndex]
  | cons x xs ih =>
    cases hp : p x with
    | true => simp [jsFindIndex, hp]
    | false =>
      by_cases h : jsFindIndex p xs = -1
      · simp only [jsFindIndex, hp, Bool.false_eq_true, if_false, h, if_pos]
        simp [hp]
        exact ih.mp h
      · have h0 : 0 ≤ jsFindIndex p xs :=
          (jsFindIndex_neg_one_or_nonneg p xs).resolve_left h
        have hlhs : jsFindIndex p (x :: xs) = jsFindIndex p xs + 1 := by
          simp [jsFindIndex, hp, h]
        rw [hlhs]
        constructor
        · intro hc; omega
        · intro hall
          exact absurd (ih.mpr fun y hy => hall y (List.mem_cons_of_mem x hy)) h

/-- When jsFindIndex does not return -1, it returns the first index whose
element satisfies the predicate. -/
lemma jsFindIndex_spec {α : Type} (p : α → Bool) (l : List α)
    (h : jsFindIndex p l ≠ -1) :
    ∃ (i : ℕ) (hi : i < l.length), jsFindIndex p l = (i : ℤ)
      ∧ p (l.get ⟨i, hi⟩) = true
      ∧ ∀ (j : ℕ) (hj : j < l.length), j < i → p (l.get ⟨j, hj⟩) = false := by
  induction l with
  | nil => exact absurd rfl h
  | cons x xs ih =>
    cases hp : p x with
    | true =>
      refine ⟨0, by simp, by simp [jsFindIndex, hp], by simpa using hp, ?_⟩
      intro j hj hji
      omega
    | false =>
      by_cases hx : jsFindIndex p xs = -1
      · exact absurd (by simp [jsFindIndex, hp, hx]) h
      · obtain ⟨i, hi, heq, hpi, hbef⟩ := ih hx
        refine ⟨i + 1, by simpa using Nat.succ_lt_succ hi, ?_, by simpa using hpi, ?_⟩
        · rw [show jsFindIndex p (x :: xs) = jsFindIndex p xs + 1 from by
            simp [jsFindIndex, hp, hx]]
          rw [heq]
          push_cast
          ring
        · intro j hj hji
          cases j with
          | zero => simpa using hp
          | succ k =>
            have hk : k < xs.length := by
              simpa using Nat.lt_of_succ_lt_succ hj
            simpa using hbef k hk (Nat.lt_of_succ_lt_succ hji)

/-- Invariant of the nearest-index loop: starting from a finite running
minimum m at accumulator index idx, the scan either keeps idx (when every
remaining difference is at least m) or returns the position of the first
strict improvement chain's final index, which minimizes the absolute
difference over the remaining list, strictly below every earlier remaining
difference and below m. -/
lemma scanNearest_spec (target : ℤ) (ts : List ℤ) :
    ∀ (i : ℕ) (m : ℤ) (idx : ℤ),
      (scanNearest target ts i (some m) idx = idx
        ∧ ∀ (k : ℕ) (hk : k < ts.length), m ≤ |ts.get ⟨k, hk⟩ - target|)
      ∨ (∃ (j : ℕ) (hj : j < ts.length),
          scanNearest target ts i (some m) idx = (i : ℤ) + (j : ℤ)
          ∧ |ts.get ⟨j, hj⟩ - target| < m
          ∧ (∀ (k : ℕ) (hk : k < ts.length),
              |ts.get ⟨j, hj⟩ - target| ≤ |ts.get ⟨k, hk⟩ - target|)
          ∧ (∀ (k : ℕ) (hk : k < ts.length), k < j →
              |ts.get ⟨j, hj⟩ - target| < |ts.get ⟨k, hk⟩ - target|)) := by
  induction ts with
  | nil =>
    intro i m idx
    left
    exact ⟨rfl, fun k hk => absurd hk (by simp)⟩
  | cons t ts ih =>
    intro i m idx
    by_cases hd : |t - target| < m
    · have hstep : scanNearest target (t :: ts) i (some m) idx
          = scanNearest target ts (i + 1) (some |t - target|) (i : ℤ) := by
        simp [scanNearest, diffLt, hd]
      rcases ih (i + 1) |t - target| (i : ℤ) with ⟨heq, hall⟩ | ⟨j, hj, heq, hlt, hle, hbef⟩
      · right
        refine ⟨0, by simp, ?_, by simpa using hd, ?_, ?_⟩
        · rw [hstep, heq]; simp
        · intro k hk
          cases k with
          | zero => simp
          | succ n =>
            have hn : n < ts.length := by simpa using Nat.lt_of_succ_lt_succ hk
            simpa using hall n hn
        · intro k hk hk0
          omega
      · right
        refine ⟨j + 1, by simpa using Nat.succ_lt_succ hj, ?_, ?_, ?_, ?_⟩
        · rw [hstep, heq]; push_cast; ring
        · calc |(t :: ts).get ⟨j + 1, by simpa using Nat.succ_lt_succ hj⟩ - target|
              = |ts.get ⟨j, hj⟩ - target| := by simp
          _ < |t - target| := hlt
          _ < m := hd
        · intro k hk
          cases k with
          | zero =>
            simpa using le_of_lt hlt
          | succ n =>
            have hn : n < ts.length := by simpa using Nat.lt_of_succ_lt_succ hk
            simpa using hle n hn
        · intro k hk hkj
          cases k with
          | zero => simpa using hlt
          | succ n =>
            have hn : n < ts.length := by simpa using Nat.lt_of_succ_lt_succ hk
            simpa using hbef n hn (Nat.lt_of_succ_lt_succ hkj)
    · have hstep : scanNearest target (t :: ts) i (some m) idx
          = scanNearest target ts (i + 1) (some m) idx := by
        simp [scanNearest, diffLt, hd]
      have hm : m ≤ |t - target| := not_lt.mp hd
      rcases ih (i + 1) m idx with ⟨heq, hall⟩ | ⟨j, hj, heq, hlt, hle, hbef⟩
      · left
        refine ⟨by rw [hstep, heq], ?_⟩
        intro k hk
        cases k with
        | zero => simpa using hm
        | succ n =>
          have hn : n < ts.length := by simpa using Nat.lt_of_succ_lt_succ hk
          simpa using hall n hn
      · right
        refine ⟨j + 1, by simpa using Nat.succ_lt_succ hj, ?_, by simpa using hlt, ?_, ?_⟩
        · rw [hstep, heq]; push_cast; ring
        · intro k hk
          cases k with
          | zero =>
            simpa using le_of_lt (lt_of_lt_of_le hlt hm)
          | succ n =>
            have hn : n < ts.length := by simpa using Nat.lt_of_succ_lt_succ hk
            simpa using hle n hn
        · intro k hk hkj
          cases k with
          | zero => simpa using lt_of_lt_of_le hlt hm
          | succ n =>
            have hn : n < ts.length := by simpa using Nat.lt_of_succ_lt_succ hk
            simpa using hbef n hn (Nat.lt_of_succ_lt_succ hkj)

/-- For a non-empty series the nearest-index scan returns an in-range index
minimizing the absolute time difference, strictly smaller than the difference
at every earlier index (first-occurrence tie-break). -/
lemma nearestIdx_spec (times : List ℤ) (target : ℤ) (h : times ≠ []) :
    ∃ (j : ℕ) (hj : j < times.length),
      nearestIdx times target = (j : ℤ)
      ∧ (∀ (k : ℕ) (hk : k < times.length),
          |times.get ⟨j, hj⟩ - target| ≤ |times.get ⟨k, hk⟩ - target|)
      ∧ (∀ (k : ℕ) (hk : k < times.length), k < j →
          |times.get ⟨j, hj⟩ - target| < |times.get ⟨k, hk⟩ - target|) := by
  cases times with
  | nil => exact absurd rfl h
  | cons t ts =>
    have hstep : nearestIdx (t :: ts) target
        = scanNearest target ts 1 (some |t - target|) 0 := by
      simp [nearestIdx, scanNearest, diffLt]
    rcases scanNearest_spec target ts 1 |t - target| 0
      with ⟨heq, hall⟩ | ⟨j, hj, heq, hlt, hle, hbef⟩
    · refine ⟨0, by simp, by rw [hstep, heq]; simp, ?_, ?_⟩
      · intro k hk
        cases k with
        | zero => simp
        | succ n =>
          have hn : n < ts.length := by simpa using Nat.lt_of_succ_lt_succ hk
          simpa using hall n hn
      · intro k hk hk0
        omega
    · refine ⟨j + 1, by simpa using Nat.succ_lt_succ hj, ?_, ?_, ?_⟩
      · rw [hstep, heq]; push_cast; ring
      · intro k hk
        cases k with
        | zero => simpa using le_of_lt hlt
        | succ n =>
          have hn : n < ts.length := by simpa using Nat.lt_of_succ_lt_succ hk
          simpa using hle n hn
      · intro k hk hkj
        cases k with
        | zero => simpa using hlt
        | succ n =>
          have hn : n < ts.length := by simpa using Nat.lt_of_succ_lt_succ hk
          simpa using hbef n hn (Nat.lt_of_succ_lt_succ hkj)

/-- Index selection of specific-instant mode, fully specified: for a non-empty
series it returns an in-range index; when an exact timestamp match exists the
selected sample's timestamp equals the target (first such index); otherwise
the selected index minimizes the absolute time difference with the
first-occurrence tie-break. -/
lemma selectIdx_spec (times : List ℤ) (target : ℤ) (h : times ≠ []) :
    ∃ (j : ℕ) (hj : j < times.length),
      selectIdx times target = (j : ℤ)
      ∧ ((∃ (k : ℕ) (hk : k < times.length), times.get ⟨k, hk⟩ = target) →
          times.get ⟨j, hj⟩ = target
          ∧ ∀ (k : ℕ) (hk : k < times.length), k < j → times.get ⟨k, hk⟩ ≠ target)
      ∧ ((¬ ∃ (k : ℕ) (hk : k < times.length), times.get ⟨k, hk⟩ = target) →
          (∀ (k : ℕ) (hk : k < times.length),
            |times.get ⟨j, hj⟩ - target| ≤ |times.get ⟨k, hk⟩ - target|)
          ∧ (∀ (k : ℕ) (hk : k < times.length), k < j →
              |times.get ⟨j, hj⟩ - target| < |times.get ⟨k, hk⟩ - target|)) := by
  by_cases hfe : jsFindIndex (fun t => decide (t = target)) times = -1
  · have hnone : ∀ x ∈ times, decide (x = target) = false :=
      (jsFindIndex_eq_neg_one_iff _ times).mp hfe
    have hsel : selectIdx times target = nearestIdx times target := by
      simp [selectIdx, hfe]
    obtain ⟨j, hj, heq, hle, hbef⟩ := nearestIdx_spec times target h
    refine ⟨j, hj, by rw [hsel, heq], ?_, fun _ => ⟨hle, hbef⟩⟩
    intro hex
    exfalso
    obtain ⟨k, hk, hkt⟩ := hex
    have hmem : times.get ⟨k, hk⟩ ∈ times := times.get_mem k hk
    have hfalse := hnone (times.get ⟨k, hk⟩) hmem
    rw [hkt] at hfalse
    simp at hfalse
  · obtain ⟨i, hi, heq, hpi, hbef⟩ := jsFindIndex_spec _ times hfe
    have hsel : selectIdx times target = (i : ℤ) := by
      simp only [selectIdx]
      rw [if_neg hfe, heq]
    have hit : times.get ⟨i, hi⟩ = target := by simpa using hpi
    refine ⟨i, hi, hsel, ?_, ?_⟩
    · intro _
      refine ⟨hit, ?_⟩
      intro k hk hki
      have := hbef k hk hki
      simpa using this
    · intro hnex
      exact absurd ⟨i, hi, hit⟩ hnex

/-- C5: In specific-instant mode, for every series length L and matched index
idx with 0 ≤ idx < L, the context window [contextStart idx, contextEnd L idx)
is exactly [max(0, idx-6), min(L, idx+6+1)): a non-empty contiguous in-bounds
range of length at most 13; with idx = 0 it starts at 0 and with idx = L-1 it
ends at L. -/
theorem C5_context_window (idx L : ℤ) (h0 : 0 ≤ idx) (hL : idx < L) :
    contextStart idx = max 0 (idx - 6)
    ∧ contextEnd L idx = min L (idx + 6 + 1)
    ∧ 0 ≤ contextStart idx
    ∧ contextStart idx ≤ idx
    ∧ idx < contextEnd L idx
    ∧ contextEnd L idx ≤ L
    ∧ contextEnd L idx - contextStart idx ≤ 13
    ∧ (idx = 0 → contextStart idx = 0)
    ∧ (idx = L - 1 → contextEnd L idx = L) := by
  refine ⟨rfl, rfl, ?_, ?_, ?_, ?_, ?_, ?_, ?_⟩ <;>
    simp only [contextStart, contextEnd, contextRadius, max_def, min_def] <;>
    split_ifs <;> omega

/-- Witness for C5 at idx = 7 in a series of length 24. -/
theorem C5_context_window_witness :
    contextStart 7 = max 0 (7 - 6)
    ∧ contextEnd 24 7 = min 24 (7 + 6 + 1)
    ∧ 0 ≤ contextStart 7
    ∧ contextStart 7 ≤ 7
    ∧ (7 : ℤ) < contextEnd 24 7
    ∧ contextEnd 24 7 ≤ 24
    ∧ contextEnd 24 7 - contextStart 7 ≤ 13
    ∧ ((7 : ℤ) = 0 → contextStart 7 = 0)
    ∧ ((7 : ℤ) = 24 - 1 → contextEnd 24 7 = 24) :=
  C5_context_window 7 24 (by norm_num) (by norm_num)

/-- C6: For every non-empty temperature sequence, evaluateTemperature assigns
exactly one status by the first matching rule, in order max > 35, min < 0,
max > 30, min < 5, else normal, so the five brackets are total and mutually
exclusive; and the input [36, 20, -1] gets status muy_alta. -/
theorem C6_temperature_status (temps : List ℚ) (hne : temps ≠ []) :
    ((evaluateTemperature temps).status = "muy_alta" ↔ listMax temps > 35)
    ∧ ((evaluateTemperature temps).status = "muy_baja"
        ↔ ¬listMax temps > 35 ∧ listMin temps < 0)
    ∧ ((evaluateTemperature temps).status = "alta"
        ↔ ¬listMax temps > 35 ∧ ¬listMin temps < 0 ∧ listMax temps > 30)
    ∧ ((evaluateTemperature temps).status = "baja"
        ↔ ¬listMax temps > 35 ∧ ¬listMin temps < 0 ∧ ¬listMax temps > 30
          ∧ listMin temps < 5)
    ∧ ((evaluateTemperature temps).status = "normal"
        ↔ ¬listMax temps > 35 ∧ ¬listMin temps < 0 ∧ ¬listMax temps > 30
          ∧ ¬listMin temps < 5)
    ∧ (evaluateTemperature [36, 20, -1]).status = "muy_alta" := by
  have hs : (evaluateTemperature temps).status
      = (if listMax temps > 35 then "muy_alta"
        else if listMin temps < 0 then "muy_baja"
        else if listMax temps > 30 then "alta"
        else if listMin temps < 5 then "baja"
        else "normal") := rfl
  refine ⟨?_, ?_, ?_, ?_, ?_, by decide⟩ <;> rw [hs] <;> split_ifs <;> simp_all

/-- Witness for C6 at the concrete input [36, 20, -1]. -/
theorem C6_temperature_status_witness :
    ((evaluateTemperature [36, 20, -1]).status = "muy_alta" ↔ listMax [36, 20, -1] > 35)
    ∧ ((evaluateTemperature [36, 20, -1]).status = "muy_baja"
        ↔ ¬listMax [36, 20, -1] > 35 ∧ listMin [36, 20, -1] < 0)
    ∧ ((evaluateTemperature [36, 20, -1]).status = "alta"
        ↔ ¬listMax [36, 20, -1] > 35 ∧ ¬listMin [36, 20, -1] < 0
          ∧ listMax [36, 20, -1] > 30)
    ∧ ((evaluateTemperature [36, 20, -1]).status = "baja"
        ↔ ¬listMax [36, 20, -1] > 35 ∧ ¬listMin [36, 20, -1] < 0
          ∧ ¬listMax [36, 20, -1] > 30 ∧ listMin [36, 20, -1] < 5)
    ∧ ((evaluateTemperature [36, 20, -1]).status = "normal"
        ↔ ¬listMax [36, 20, -1] > 35 ∧ ¬listMin [36, 20, -1] < 0
          ∧ ¬listMax [36, 20, -1] > 30 ∧ ¬listMin [36, 20, -1] < 5)
    ∧ (evaluateTemperature [36, 20, -1]).status = "muy_alta" :=
  C6_temperature_status [36, 20, -1] (by decide)

/-- C7 counterexample: the query value "0" parses to the number 0, which JS
treats as falsy, so the route substitutes the defaults (12 hours, 0.1 mm)
instead of using the parse clamped to [1,168] (which would give 1) and the
parsed threshold 0. -/
theorem C7_counterexample :
    effectiveHours (some 0) = 12
    ∧ claimedHours (some 0) = 1
    ∧ effectiveHours (some 0) ≠ claimedHours (some 0)
    ∧ effectiveThreshold (some 0) = 0.1
    ∧ claimedThreshold (some 0) = 0
    ∧ effectiveThreshold (some 0) ≠ claimedThreshold (some 0) := by
  refine ⟨rfl, rfl, by decide, rfl, rfl, by norm_num [effectiveThreshold, claimedThreshold]⟩

/-- C7 as amended: the effective hours value is the integer parse clamped to
[1,168] when the parse yields a non-zero number, and 12 when the value is
non-numeric or parses to the falsy 0; it always lies in [1,168].  The
effective threshold is the numeric parse when non-zero, and 0.1 when the
value is non-numeric or parses to the falsy 0. -/
theorem C7_effective_params (v : ℤ) (w : ℚ) (hv : v ≠ 0) (hw : w ≠ 0) :
    effectiveHours (some v) = max 1 (min 168 v)
    ∧ effectiveHours none = 12
    ∧ effectiveHours (some 0) = 12
    ∧ (1 ≤ effectiveHours (some v) ∧ effectiveHours (some v) ≤ 168)
    ∧ (1 ≤ effectiveHours none ∧ effectiveHours none ≤ 168)
    ∧ effectiveThreshold (some w) = w
    ∧ effectiveThreshold none = 0.1
    ∧ effectiveThreshold (some 0) = 0.1 := by
  refine ⟨?_, rfl, rfl, ?_, ?_, ?_, rfl, rfl⟩
  · simp [effectiveHours, hv]
  · constructor <;> simp [effectiveHours, hv, max_def, min_def] <;> split_ifs <;> omega
  · constructor <;> decide
  · simp [effectiveThreshold, hw]

/-- Witness for C7 as amended, at the parses 5 and 1/2. -/
theorem C7_effective_params_witness :
    effectiveHours (some 5) = max 1 (min 168 5)
    ∧ effectiveHours none = 12
    ∧ effectiveHours (some 0) = 12
    ∧ (1 ≤ effectiveHours (some 5) ∧ effectiveHours (some 5) ≤ 168)
    ∧ (1 ≤ effectiveHours none ∧ effectiveHours none ≤ 168)
    ∧ effectiveThreshold (some (1/2)) = 1/2
    ∧ effectiveThreshold none = 0.1
    ∧ effectiveThreshold (some 0) = 0.1 :=
  C7_effective_params 5 (1/2) (by decide) (by norm_num)

/-- C8 counterexample: with lat and lon present and the date query value
present but empty (?date=), the value "" does not parse as a valid calendar
instant (new Date of an empty string is Invalid Date), yet if (date) is false
for the falsy empty string, the validation is skipped, and the outcome is the
forward-mode fetch constructor - an outbound call with a 200-path response,
not the error constructor with status 400 that the claim requires. -/
theorem C8_counterexample :
    preFetchCheck true true (some DateValue.empty) = PreOutcome.fetch none
    ∧ preFetchCheck true true (some DateValue.empty)
        ≠ PreOutcome.error 400 "invalid date" := by
  refine ⟨rfl, ?_⟩
  intro hc
  exact PreOutcome.noConfusion hc

/-- C8 as amended: whenever the date query value is present, non-empty
(truthy) and does not parse as a valid calendar instant, the pre-fetch phase
ends in an error response with status 400 and the control flow never reaches
the outbound fetch (the outcome is the error constructor, not the fetch
constructor); a present-but-empty date value is falsy, skips the validation
entirely, and the request behaves exactly as if no date had been given. -/
theorem C8_invalid_date_no_fetch (hasLat hasLon : Bool) :
    (∃ msg, preFetchCheck hasLat hasLon (some DateValue.invalid)
        = PreOutcome.error 400 msg)
    ∧ preFetchCheck hasLat hasLon (some DateValue.empty)
        = preFetchCheck hasLat hasLon none := by
  cases hasLat <;> cases hasLon <;> exact ⟨⟨_, rfl⟩, rfl⟩

/-- C9 counterexample: for the single-sample series [-1/4] the exact average
is -0.25; round half away from zero at one decimal gives -0.3, but
evaluateTemperature returns -0.2, because JS Math.round(-2.5) rounds half
toward positive infinity. -/
theorem C9_counterexample :
    (evaluateTemperature [-(1/4)]).average = -(1/5)
    ∧ round1AwayFromZero (-(1/4)) = -(3/10)
    ∧ (evaluateTemperature [-(1/4)]).average ≠ round1AwayFromZero (-(1/4)) := by
  have h1 : (evaluateTemperature [-(1/4)]).average = -(1/5) := by
    norm_num [evaluateTemperature, round1, jsRound, listSum]
  have h2 : round1AwayFromZero (-(1/4)) = -(3/10) := by
    norm_num [round1AwayFromZero]
  refine ⟨h1, h2, ?_⟩
  rw [h1, h2]
  norm_num

/-- C9 as amended: for every non-empty input sequence, the average, max and
min values returned by evaluateTemperature and evaluateWind equal the exact
statistics (the arithmetic mean, a greatest element, a least element) rounded
to one decimal using round half toward positive infinity (JS Math.round), not
round half away from zero. -/
theorem C9_rounding (temps winds : List ℚ) (ht : temps ≠ []) (hw : winds ≠ []) :
    (evaluateTemperature temps).average = round1HalfUp (temps.sum / (temps.length : ℚ))
    ∧ (evaluateTemperature temps).max = round1HalfUp (listMax temps)
    ∧ (listMax temps ∈ temps ∧ ∀ x ∈ temps, x ≤ listMax temps)
    ∧ (evaluateTemperature temps).min = round1HalfUp (listMin temps)
    ∧ (listMin temps ∈ temps ∧ ∀ x ∈ temps, listMin temps ≤ x)
    ∧ (evaluateWind winds).average = round1HalfUp (winds.sum / (winds.length : ℚ))
    ∧ (evaluateWind winds).max = round1HalfUp (listMax winds)
    ∧ (listMax winds ∈ winds ∧ ∀ x ∈ winds, x ≤ listMax winds) := by
  have havg : ∀ l : List ℚ, round1 (listSum l / (l.length : ℚ))
      = round1HalfUp (l.sum / (l.length : ℚ)) := by
    intro l
    rw [listSum_eq_sum]
    rfl
  exact ⟨havg temps, rfl, ⟨listMax_mem ht, fun x hx => le_listMax hx⟩,
    rfl, ⟨listMin_mem ht, fun x hx => listMin_le hx⟩,
    havg winds, rfl, ⟨listMax_mem hw, fun x hx => le_listMax hx⟩⟩

/-- Witness for C9 as amended, at temperatures [36, 20, -1] and winds [5]. -/
theorem C9_rounding_witness :
    (evaluateTemperature [36, 20, -1]).average
      = round1HalfUp (List.sum [36, 20, -1] / ((List.length [(36 : ℚ), 20, -1] : ℕ) : ℚ))
    ∧ (evaluateTemperature [36, 20, -1]).max = round1HalfUp (listMax [36, 20, -1])
    ∧ (listMax [36, 20, -1] ∈ [(36 : ℚ), 20, -1]
        ∧ ∀ x ∈ [(36 : ℚ), 20, -1], x ≤ listMax [36, 20, -1])
    ∧ (evaluateTemperature [36, 20, -1]).min = round1HalfUp (listMin [36, 20, -1])
    ∧ (listMin [36, 20, -1] ∈ [(36 : ℚ), 20, -1]
        ∧ ∀ x ∈ [(36 : ℚ), 20, -1], listMin [36, 20, -1] ≤ x)
    ∧ (evaluateWind [5]).average = round1HalfUp (List.sum [5] / ((List.length [(5 : ℚ)] : ℕ) : ℚ))
    ∧ (evaluateWind [5]).max = round1HalfUp (listMax [5])
    ∧ (listMax [5] ∈ [(5 : ℚ)] ∧ ∀ x ∈ [(5 : ℚ)], x ≤ listMax [5]) :=
  C9_rounding [36, 20, -1] [5] (by decide) (by decide)

/-- The humidity bonus is never negative. -/
lemma humidityBonus_nonneg (humidity : Option (List ℚ)) : 0 ≤ humidityBonus humidity := by
  cases humidity with
  | none => exact le_refl 0
  | some hu =>
    simp only [humidityBonus]
    split_ifs <;> norm_num

/-- The source's inline bonus agrees with the spec-worded bonus that uses the
library sum for the arithmetic mean. -/
lemma humidityBonus_eq_spec (humidity : Option (List ℚ)) :
    humidityBonus humidity
      = (match humidity with
        | none => (0 : ℚ)
        | some hu =>
          if 0 < hu.length then
            if hu.sum / (hu.length : ℚ) > 80 then 10
            else if hu.sum / (hu.length : ℚ) > 60 then 5 else 0
          else 0) := by
  cases humidity with
  | none => rfl
  | some hu => simp only [humidityBonus, listSum_eq_sum]

/-- C2: For every precipitation sequence of length hours ≥ 1 and every
optional humidity sequence, calculateRainProbability equals the spec formula
round(min(100, (rainHours / hours) * 100 + humidityBonus)) and its value is
an integer in [0, 100]. -/
theorem C2_rain_probability (precs : List ℚ) (humidity : Option (List ℚ)) (hours : ℤ)
    (hlen : (precs.length : ℤ) = hours) (h1 : 1 ≤ hours) :
    calculateRainProbability precs humidity hours = specRainProbability precs humidity hours
    ∧ 0 ≤ calculateRainProbability precs humidity hours
    ∧ calculateRainProbability precs humidity hours ≤ 100 := by
  have hbase : (0 : ℚ) ≤ (((precs.filter (fun p => decide (p > 0.1))).length : ℚ) / (hours : ℚ)) * 100 := by
    have hh : (0 : ℚ) < (hours : ℚ) := by exact_mod_cast h1
    positivity
  have hx : (0 : ℚ) ≤ (((precs.filter (fun p => decide (p > 0.1))).length : ℚ) / (hours : ℚ)) * 100
      + humidityBonus humidity :=
    add_nonneg hbase (humidityBonus_nonneg humidity)
  refine ⟨?_, ?_, ?_⟩
  · unfold calculateRainProbability specRainProbability
    rw [min_jsRound, humidityBonus_eq_spec]
  · rw [calculateRainProbability]
    exact le_min (by norm_num) (jsRound_nonneg hx)
  · rw [calculateRainProbability]
    exact min_le_left 100 _

/-- Witness for C2 at precipitation [1/2, 0], humidity [85, 85], hours 2. -/
theorem C2_rain_probability_witness :
    calculateRainProbability [1/2, 0] (some [85, 85]) 2
        = specRainProbability [1/2, 0] (some [85, 85]) 2
    ∧ 0 ≤ calculateRainProbability [1/2, 0] (some [85, 85]) 2
    ∧ calculateRainProbability [1/2, 0] (some [85, 85]) 2 ≤ 100 :=
  C2_rain_probability [1/2, 0] (some [85, 85]) 2 (by decide) (by decide)

/-- C1 counterexample: series with timestamps [0, 3600000] and precipitation
[5, 0]; the target matches index 1 exactly, whose precipitation 0 is below the
caller-supplied threshold 1, so the route reports willRain = false even though
the context window [0, 2) contains the sample 5 ≥ 1; hence willRain is not the
window-any-sample flag the claim states. -/
theorem C1_counterexample :
    (specificMode ⟨[0, 3600000], [5, 0], [10, 10], none, [1, 1]⟩ 3600000 1).willRain
      = false
    ∧ ((specificMode ⟨[0, 3600000], [5, 0], [10, 10], none, [1, 1]⟩ 3600000 1).contextPrecs.any
        (fun p => decide (p ≥ 1))) = true := by
  constructor <;> decide

/-- C1 as amended: in specific-instant mode, willRain is true iff the
precipitation at the matched index itself is at least the threshold; the
surrounding context window plays no part in the flag. -/
theorem C1_willRain_point (h : Hourly) (target : ℤ) (thresh : ℚ)
    (hne : h.time ≠ []) (hlen : h.precipitation.length = h.time.length) :
    ∃ (j : ℕ) (hj : j < h.precipitation.length),
      (specificMode h target thresh).idx = (j : ℤ)
      ∧ ((specificMode h target thresh).willRain = true
          ↔ h.precipitation.get ⟨j, hj⟩ ≥ thresh) := by
  obtain ⟨j, hj, heq, _, _⟩ := selectIdx_spec h.time target hne
  have hj2 : j < h.precipitation.length := by omega
  have hidx : (specificMode h target thresh).idx = selectIdx h.time target := rfl
  have hwr : (specificMode h target thresh).willRain
      = decide ((jsIndex h.precipitation (selectIdx h.time target)).getD 0 ≥ thresh) := rfl
  have hget : jsIndex h.precipitation (selectIdx h.time target)
      = some (h.precipitation.get ⟨j, hj2⟩) := by
    rw [heq]
    simp only [jsIndex]
    rw [if_neg (by omega)]
    rw [Int.toNat_natCast]
    exact List.get?_eq_get hj2
  refine ⟨j, hj2, by rw [hidx, heq], ?_⟩
  rw [hwr, hget]
  simp

/-- Witness for C1 as amended: target 3600000 matches index 1 of the series
of the counterexample input. -/
theorem C1_willRain_point_witness :
    ∃ (j : ℕ) (hj : j < ([1, 0] : List ℚ).length),
      (specificMode ⟨[0, 3600000], [1, 0], [10, 10], none, [1, 1]⟩ 3600000 (1/10)).idx = (j : ℤ)
      ∧ ((specificMode ⟨[0, 3600000], [1, 0], [10, 10], none, [1, 1]⟩ 3600000 (1/10)).willRain = true
          ↔ ([1, 0] : List ℚ).get ⟨j, hj⟩ ≥ 1/10) :=
  C1_willRain_point ⟨[0, 3600000], [1, 0], [10, 10], none, [1, 1]⟩ 3600000 (1/10)
    (by decide) (by decide)

/-- C3: In specific-instant mode, for every non-empty hourly series: if some
sample's timestamp equals the target instant the selected index has zero time
difference; otherwise the selected index minimizes the absolute time
difference over the whole series, ties resolved by the first occurrence in
series order (every earlier index has a strictly larger difference). -/
theorem C3_index_selection (times : List ℤ) (target : ℤ) (hne : times ≠ []) :
    ∃ (j : ℕ) (hj : j < times.length),
      selectIdx times target = (j : ℤ)
      ∧ ((∃ (k : ℕ) (hk : k < times.length), times.get ⟨k, hk⟩ = target) →
          |times.get ⟨j, hj⟩ - target| = 0)
      ∧ ((¬ ∃ (k : ℕ) (hk : k < times.length), times.get ⟨k, hk⟩ = target) →
          (∀ (k : ℕ) (hk : k < times.length),
            |times.get ⟨j, hj⟩ - target| ≤ |times.get ⟨k, hk⟩ - target|)
          ∧ (∀ (k : ℕ) (hk : k < times.length), k < j →
              |times.get ⟨j, hj⟩ - target| < |times.get ⟨k, hk⟩ - target|)) := by
  obtain ⟨j, hj, heq, hex, hnex⟩ := selectIdx_spec times target hne
  refine ⟨j, hj, heq, ?_, hnex⟩
  intro he
  rcases hex he with ⟨hjt, _⟩
  rw [hjt]
  simp

/-- Witness for C3 at the series [0, 10] and target 10 (exact match at
index 1). -/
theorem C3_index_selection_witness :
    ∃ (j : ℕ) (hj : j < ([0, 10] : List ℤ).length),
      selectIdx [0, 10] 10 = (j : ℤ)
      ∧ ((∃ (k : ℕ) (hk : k < ([0, 10] : List ℤ).length),
            ([0, 10] : List ℤ).get ⟨k, hk⟩ = 10) →
          |([0, 10] : List ℤ).get ⟨j, hj⟩ - 10| = 0)
      ∧ ((¬ ∃ (k : ℕ) (hk : k < ([0, 10] : List ℤ).length),
            ([0, 10] : List ℤ).get ⟨k, hk⟩ = 10) →
          (∀ (k : ℕ) (hk : k < ([0, 10] : List ℤ).length),
            |([0, 10] : List ℤ).get ⟨j, hj⟩ - 10| ≤ |([0, 10] : List ℤ).get ⟨k, hk⟩ - 10|)
          ∧ (∀ (k : ℕ) (hk : k < ([0, 10] : List ℤ).length), k < j →
              |([0, 10] : List ℤ).get ⟨j, hj⟩ - 10| < |([0, 10] : List ℤ).get ⟨k, hk⟩ - 10|)) :=
  C3_index_selection [0, 10] 10 (by decide)

/-- Length of a JS slice: min(e, length) - s in clipped natural arithmetic. -/
lemma jsSlice_length {α : Type} (l : List α) (s e : ℤ) :
    (jsSlice l s e).length = min e.toNat l.length - s.toNat := by
  simp [jsSlice, List.length_drop, List.length_take]

/-- Elements of a JS slice come from the original list shifted by the start
index. -/
lemma jsSlice_get? {α : Type} (l : List α) (s e : ℤ) (j : ℕ)
    (hj : j < (jsSlice l s e).length) :
    (jsSlice l s e).get? j = l.get? (s.toNat + j) := by
  rw [jsSlice_length] at hj
  simp only [jsSlice, List.get?_eq_getElem?, List.getElem?_drop, List.getElem?_take]
  rw [if_pos (by omega)]

/-- C4: In forward mode, for every non-empty hourly series and reference
instant now, the start index is the first sample with timestamp ≥ now (the
last index when none exists), the analysis window is
[startIdx, min(length, startIdx + requestedHours)), and hoursAnalyzed is that
window's length. -/
theorem C4_forward_window (h : Hourly) (now hoursNum : ℤ) (thresh : ℚ)
    (hne : h.time ≠ []) (hh : 1 ≤ hoursNum) :
    ∃ s : ℕ, (forwardMode h now hoursNum thresh).startIdx = (s : ℤ)
      ∧ s < h.time.length
      ∧ ((∃ (k : ℕ) (hk : k < h.time.length), now ≤ h.time.get ⟨k, hk⟩) →
          ∃ (hs : s < h.time.length), now ≤ h.time.get ⟨s, hs⟩
            ∧ ∀ (k : ℕ) (hk : k < h.time.length), k < s → h.time.get ⟨k, hk⟩ < now)
      ∧ ((∀ (k : ℕ) (hk : k < h.time.length), h.time.get ⟨k, hk⟩ < now) →
          s = h.time.length - 1)
      ∧ (forwardMode h now hoursNum thresh).hoursAnalyzed
          = min h.time.length (s + hoursNum.toNat) - s
      ∧ (∀ j : ℕ, j < (forwardMode h now hoursNum thresh).hoursAnalyzed →
          (forwardMode h now hoursNum thresh).sliceTimes.get? j = h.time.get? (s + j)) := by
  have hlen1 : 1 ≤ h.time.length := List.length_pos.mpr hne
  have hs0 : (forwardMode h now hoursNum thresh).startIdx
      = (if jsFindIndex (fun t => decide (t ≥ now)) h.time = -1
        then (h.time.length : ℤ) - 1
        else jsFindIndex (fun t => decide (t ≥ now)) h.time) := rfl
  have hha0 : (forwardMode h now hoursNum thresh).hoursAnalyzed
      = (jsSlice h.time (forwardMode h now hoursNum thresh).startIdx
          ((forwardMode h now hoursNum thresh).startIdx + hoursNum)).length := rfl
  have hst0 : (forwardMode h now hoursNum thresh).sliceTimes
      = jsSlice h.time (forwardMode h now hoursNum thresh).startIdx
          ((forwardMode h now hoursNum thresh).startIdx + hoursNum) := rfl
  by_cases hf : jsFindIndex (fun t => decide (t ≥ now)) h.time = -1
  · have hallf : ∀ x ∈ h.time, decide (x ≥ now) = false :=
      (jsFindIndex_eq_neg_one_iff _ _).mp hf
    have hsv : (forwardMode h now hoursNum thresh).startIdx
        = ((h.time.length - 1 : ℕ) : ℤ) := by
      rw [hs0, if_pos hf]
      omega
    have hha : (forwardMode h now hoursNum thresh).hoursAnalyzed
        = min h.time.length ((h.time.length - 1) + hoursNum.toNat) - (h.time.length - 1) := by
      rw [hha0, hsv, jsSlice_length]
      omega
    refine ⟨h.time.length - 1, hsv, by omega, ?_, fun _ => rfl, hha, ?_⟩
    · intro hex
      exfalso
      obtain ⟨k, hk, hkn⟩ := hex
      have hdec := hallf (h.time.get ⟨k, hk⟩) (h.time.get_mem k hk)
      rw [decide_eq_false_iff_not] at hdec
      exact hdec hkn
    · intro j hj
      rw [hha0, hsv] at hj
      rw [hst0, hsv, jsSlice_get? _ _ _ j hj]
      congr 1
  · obtain ⟨i, hi, heq, hpi, hbef⟩ := jsFindIndex_spec _ h.time hf
    have hsv : (forwardMode h now hoursNum thresh).startIdx = (i : ℤ) := by
      rw [hs0, if_neg hf, heq]
    have hha : (forwardMode h now hoursNum thresh).hoursAnalyzed
        = min h.time.length (i + hoursNum.toNat) - i := by
      rw [hha0, hsv, jsSlice_length]
      omega
    have hnow : now ≤ h.time.get ⟨i, hi⟩ := by simpa using hpi
    refine ⟨i, hsv, hi, ?_, ?_, hha, ?_⟩
    · intro _
      refine ⟨hi, hnow, ?_⟩
      intro k hk hki
      have := hbef k hk hki
      simpa using this
    · intro hall
      exact absurd hnow (not_le.mpr (hall i hi))
    · intro j hj
      rw [hha0, hsv] at hj
      rw [hst0, hsv, jsSlice_get? _ _ _ j hj]
      congr 1

/-- Witness for C4 at the series [0, 1] with now = 1 and one requested hour. -/
theorem C4_forward_window_witness :
    ∃ s : ℕ, (forwardMode ⟨[0, 1], [0, 0], [1, 1], none, [1, 1]⟩ 1 1 1).startIdx = (s : ℤ)
      ∧ s < ([0, 1] : List ℤ).length
      ∧ ((∃ (k : ℕ) (hk : k < ([0, 1] : List ℤ).length),
            1 ≤ ([0, 1] : List ℤ).get ⟨k, hk⟩) →
          ∃ (hs : s < ([0, 1] : List ℤ).length), 1 ≤ ([0, 1] : List ℤ).get ⟨s, hs⟩
            ∧ ∀ (k : ℕ) (hk : k < ([0, 1] : List ℤ).length), k < s →
                ([0, 1] : List ℤ).get ⟨k, hk⟩ < 1)
      ∧ ((∀ (k : ℕ) (hk : k < ([0, 1] : List ℤ).length),
            ([0, 1] : List ℤ).get ⟨k, hk⟩ < 1) →
          s = ([0, 1] : List ℤ).length - 1)
      ∧ (forwardMode ⟨[0, 1], [0, 0], [1, 1], none, [1, 1]⟩ 1 1 1).hoursAnalyzed
          = min ([0, 1] : List ℤ).length (s + (1 : ℤ).toNat) - s
      ∧ (∀ j : ℕ, j < (forwardMode ⟨[0, 1], [0, 0], [1, 1], none, [1, 1]⟩ 1 1 1).hoursAnalyzed →
          (forwardMode ⟨[0, 1], [0, 0], [1, 1], none, [1, 1]⟩ 1 1 1).sliceTimes.get? j
            = ([0, 1] : List ℤ).get? (s + j)) :=
  C4_forward_window ⟨[0, 1], [0, 0], [1, 1], none, [1, 1]⟩ 1 1 1 (by decide) (by decide)

/-- The rain probability does not increase when the denominator grows, as long
as the rainy-sample count stays within the smaller denominator. -/
lemma calculateRainProbability_le (precs : List ℚ) (humidity : Option (List ℚ))
    (h1 h2 : ℤ) (h12 : h2 ≤ h1)
    (hcount : (((precs.filter (fun p => decide (p > 0.1))).length : ℕ) : ℤ) ≤ h2) :
    calculateRainProbability precs humidity h1
      ≤ calculateRainProbability precs humidity h2 := by
  unfold calculateRainProbability
  apply min_le_min le_rfl
  apply jsRound_mono
  apply add_le_add_right
  apply mul_le_mul_of_nonneg_right _ (by norm_num)
  rcases Nat.eq_zero_or_pos (precs.filter (fun p => decide (p > 0.1))).length with hz | hpos
  · rw [hz]
    simp
  · have hc : (0 : ℚ) ≤ ((precs.filter (fun p => decide (p > 0.1))).length : ℚ) := by
      positivity
    have h2q : (0 : ℚ) < (h2 : ℚ) := by
      have : (0 : ℤ) < h2 := by omega
      exact_mod_cast this
    exact div_le_div_of_nonneg_left hc h2q (by exact_mod_cast h12)

/-- C10: In forward mode the rain probability is computed with the clamped
requested hours as denominator; when fewer samples remain than requested the
denominator exceeds hoursAnalyzed and the reported probability is at most
(not always strictly below) the value the formula would give with the
window's length as denominator. -/
theorem C10_denominator (h : Hourly) (now hoursNum : ℤ) (thresh : ℚ)
    (hlen : h.precipitation.length = h.time.length) (hh : 1 ≤ hoursNum) :
    (forwardMode h now hoursNum thresh).rainProbability
      = calculateRainProbability (forwardMode h now hoursNum thresh).slicePrecs
          (forwardMode h now hoursNum thresh).sliceHumidity hoursNum
    ∧ (((forwardMode h now hoursNum thresh).hoursAnalyzed : ℕ) : ℤ) ≤ hoursNum
    ∧ ((((forwardMode h now hoursNum thresh).hoursAnalyzed : ℕ) : ℤ) < hoursNum →
        (forwardMode h now hoursNum thresh).rainProbability
          ≤ calculateRainProbability (forwardMode h now hoursNum thresh).slicePrecs
              (forwardMode h now hoursNum thresh).sliceHumidity
              ((((forwardMode h now hoursNum thresh).hoursAnalyzed : ℕ)) : ℤ)) := by
  have hha0 : (forwardMode h now hoursNum thresh).hoursAnalyzed
      = (jsSlice h.time (forwardMode h now hoursNum thresh).startIdx
          ((forwardMode h now hoursNum thresh).startIdx + hoursNum)).length := rfl
  have hsp0 : (forwardMode h now hoursNum thresh).slicePrecs
      = jsSlice h.precipitation (forwardMode h now hoursNum thresh).startIdx
          ((forwardMode h now hoursNum thresh).startIdx + hoursNum) := rfl
  have hlens : (forwardMode h now hoursNum thresh).slicePrecs.length
      = (forwardMode h now hoursNum thresh).hoursAnalyzed := by
    rw [hha0, hsp0, jsSlice_length, jsSlice_length, hlen]
  have hbound : ((((forwardMode h now hoursNum thresh).hoursAnalyzed : ℕ)) : ℤ) ≤ hoursNum := by
    rw [hha0, jsSlice_length]
    omega
  refine ⟨rfl, hbound, ?_⟩
  intro hlt
  apply calculateRainProbability_le
  · exact le_of_lt hlt
  · calc ((((forwardMode h now hoursNum thresh).slicePrecs.filter
          (fun p => decide (p > 0.1))).length : ℕ) : ℤ)
        ≤ ((forwardMode h now hoursNum thresh).slicePrecs.length : ℤ) := by
          exact_mod_cast List.length_filter_le _ _
    _ = (((forwardMode h now hoursNum thresh).hoursAnalyzed : ℕ) : ℤ) := by
          exact_mod_cast hlens

/-- C10 counterexample: series of one sample with zero precipitation, twelve
requested hours; only one sample remains (hoursAnalyzed = 1 < 12), yet the
probability computed with denominator 12 equals the probability computed with
the window length 1 (both are 0), so the probability is not strictly lower. -/
theorem C10_counterexample :
    (forwardMode ⟨[0], [0], [10], none, [1]⟩ 0 12 1).hoursAnalyzed = 1
    ∧ (((forwardMode ⟨[0], [0], [10], none, [1]⟩ 0 12 1).hoursAnalyzed : ℕ) : ℤ) < 12
    ∧ (forwardMode ⟨[0], [0], [10], none, [1]⟩ 0 12 1).rainProbability
        = calculateRainProbability (forwardMode ⟨[0], [0], [10], none, [1]⟩ 0 12 1).slicePrecs
            (forwardMode ⟨[0], [0], [10], none, [1]⟩ 0 12 1).sliceHumidity 1 := by
  have hsp : (forwardMode ⟨[0], [0], [10], none, [1]⟩ 0 12 1).slicePrecs = [0] := by decide
  have hsh : (forwardMode ⟨[0], [0], [10], none, [1]⟩ 0 12 1).sliceHumidity = none := rfl
  have hzero : ∀ hrs : ℤ, calculateRainProbability [0] none hrs = 0 := by
    intro hrs
    unfold calculateRainProbability
    have hfil : List.filter (fun p => decide (p > 0.1)) [(0 : ℚ)] = [] := by
      norm_num [List.filter]
    rw [hfil]
    norm_num [humidityBonus, jsRound]
  have hrp : (forwardMode ⟨[0], [0], [10], none, [1]⟩ 0 12 1).rainProbability
      = calculateRainProbability
          (forwardMode ⟨[0], [0], [10], none, [1]⟩ 0 12 1).slicePrecs
          (forwardMode ⟨[0], [0], [10], none, [1]⟩ 0 12 1).sliceHumidity 12 := rfl
  refine ⟨by decide, by decide, ?_⟩
  rw [hrp, hsp, hsh, hzero 12, hzero 1]

/-- Witness for C10 at a two-sample series with now = 0 and two requested
hours, where only one sample remains past the start index. -/
theorem C10_denominator_witness :
    (forwardMode ⟨[0, 1], [2, 2], [10, 10], none, [1, 1]⟩ 1 2 1).rainProbability
      = calculateRainProbability
          (forwardMode ⟨[0, 1], [2, 2], [10, 10], none, [1, 1]⟩ 1 2 1).slicePrecs
          (forwardMode ⟨[0, 1], [2, 2], [10, 10], none, [1, 1]⟩ 1 2 1).sliceHumidity 2
    ∧ ((((forwardMode ⟨[0, 1], [2, 2], [10, 10], none, [1, 1]⟩ 1 2 1).hoursAnalyzed : ℕ)) : ℤ) ≤ 2
    ∧ ((((forwardMode ⟨[0, 1], [2, 2], [10, 10], none, [1, 1]⟩ 1 2 1).hoursAnalyzed : ℕ) : ℤ) < 2 →
        (forwardMode ⟨[0, 1], [2, 2], [10, 10], none, [1, 1]⟩ 1 2 1).rainProbability
          ≤ calculateRainProbability
              (forwardMode ⟨[0, 1], [2, 2], [10, 10], none, [1, 1]⟩ 1 2 1).slicePrecs
              (forwardMode ⟨[0, 1], [2, 2], [10, 10], none, [1, 1]⟩ 1 2 1).sliceHumidity
              ((((forwardMode ⟨[0, 1], [2, 2], [10, 10], none, [1, 1]⟩ 1 2 1).hoursAnalyzed : ℕ)) : ℤ)) :=
  C10_denominator ⟨[0, 1], [2, 2], [10, 10], none, [1, 1]⟩ 1 2 1 (by decide) (by decide)
